import Mathlib

set_option maxHeartbeats 1000000

/-! Verification of the Sentient-Inbox secure record store and email
processing pipeline.

The secure record store (`SecureStorageManager` in `secure_storage.py`) is
not present in the sources; only its tests and callers are.  Its model below
is therefore taken from the specification document, definition by
definition.  The email pipeline (`email_processor.py`) is present and is
embedded directly, with its external collaborators (Gmail client,
classifier, LLM analyzers, router, storage) represented as per-email
oracles and with an explicit trace of the side-effecting calls the
pipeline makes. -/

namespace SentientInbox

namespace SecureStorage

/-- Modelled from the spec: `secure_storage.py` is missing from the sources.
A Record is a mapping of string fields; required fields are `message_id`
and `timestamp` (an ISO-8601 string, whose lexicographic order coincides
with chronological order), and arbitrary additional caller-supplied fields
are preserved opaquely. -/
abbrev Rec := List (String × String)

/-- Modelled from the spec: the `message_id` field of a record, the primary
dedup key; the empty string stands for an absent or invalid id. -/
def messageId (r : Rec) : String :=
  (r.lookup "message_id").getD ""

/-- Modelled from the spec: `add_record` fails on empty or malformed data,
i.e. data missing the required fields (absent/invalid `message_id`,
absent `timestamp`). -/
def validRecord (d : Rec) : Bool :=
  (messageId d != "") && (d.lookup "timestamp").isSome

/-- Lexicographic strict order on character lists, by code point. -/
def tsLtChars : List Char → List Char → Bool
  | _, [] => false
  | [], _ :: _ => true
  | a :: as, b :: bs =>
    if a.toNat < b.toNat then true
    else if b.toNat < a.toNat then false
    else tsLtChars as bs

/-- Lexicographic strict order on strings, by code point; on ISO-8601
timestamps of a common format it coincides with chronological order. -/
def tsLt (a b : String) : Bool := tsLtChars a.data b.data

/-- Modelled from the spec: a record is older than the retention window
when its `timestamp` is below the cutoff timestamp (`now - max_age`
rendered in the same ISO-8601 format); a record with no timestamp is not
considered old. -/
def isOlder (r : Rec) (cutoff : String) : Bool :=
  match r.lookup "timestamp" with
  | some t => tsLt t cutoff
  | none => false

/-- Modelled from the spec: `RetentionCleaner.prune` removes every record
whose `timestamp` is older than `max_age` relative to `now`. -/
def prune (recs : List Rec) (cutoff : String) : List Rec :=
  recs.filter (fun r => !isOlder r cutoff)

/-- Modelled from the spec: a symmetric key with a stable identifier. -/
structure Key where
  keyId : Nat
deriving DecidableEq, Repr

/-- Modelled from the spec: the content of an encrypted file.  An
authenticated-encrypted blob decrypts exactly under the key that produced
it; `garbage` stands for bytes (e.g. after corruption) that fail
authenticated decryption under every key. -/
inductive Blob where
  | enc (keyId : Nat) (payload : List Rec)
  | garbage
deriving DecidableEq, Repr

/-- Modelled from the spec: the state owned by a `SecureStorageManager`
instance: the keyring (active key first, then retired keys newest first),
a counter producing fresh key identifiers, the live record file (`none`
when absent), and the backup files, newest first. -/
structure StorageState where
  keys : List Key
  nextKeyId : Nat
  file : Option Blob
  backups : List Blob
deriving DecidableEq, Repr

/-- Modelled from the spec: the unrecoverable-load error kind. -/
inductive StorageError where
  | storageCorrupted
deriving DecidableEq, Repr

/-- Modelled from the spec: authenticated decryption tried with the active
key and then each retired key of the keyring; it yields the payload when
some key of the keyring matches the blob's key, and fails on garbage. -/
def decryptWith (keys : List Key) : Blob → Option (List Rec)
  | .enc kid payload => if keys.any (fun k => k.keyId == kid) then some payload else none
  | .garbage => none

/-- Modelled from the spec: `load`.  A missing file yields the empty
collection.  If the file fails decryption with every known key, the store
falls back to the most recent backup, tried with the same key sequence;
if that fails too, `load` fails with `StorageCorrupted`. -/
def load (s : StorageState) : Except StorageError (List Rec) :=
  match s.file with
  | none => .ok []
  | some b =>
    match decryptWith s.keys b with
    | some recs => .ok recs
    | none =>
      match s.backups.head? with
      | some bb =>
        match decryptWith s.keys bb with
        | some recs => .ok recs
        | none => .error .storageCorrupted
      | none => .error .storageCorrupted

/-- Modelled from the spec: the identifier of the active key, the first
key of the keyring. -/
def activeKeyId (s : StorageState) : Nat :=
  (s.keys.head?.map Key.keyId).getD 0

/-- Modelled from the spec: `save` encrypts the collection with the active
key and atomically replaces the live file; a backup snapshot of the
pre-write file is taken immediately before the replace (no snapshot is
taken when no file exists yet). -/
def save (s : StorageState) (recs : List Rec) : StorageState :=
  { keys := s.keys, nextKeyId := s.nextKeyId,
    file := some (.enc (activeKeyId s) recs),
    backups := (match s.file with | some b => b :: s.backups | none => s.backups) }

/-- Modelled from the spec: `add_record`.  Fails without touching the
state on `None`, empty or malformed data and on unrecoverable load
failure; otherwise load, optionally prune, append the new record and
save, returning a record id derived from the `message_id`. -/
def addRecord (s : StorageState) (data : Option Rec) (forceCleanup : Bool)
    (cutoff : String) : StorageState × Option String × Bool :=
  match data with
  | none => (s, none, false)
  | some d =>
    if validRecord d then
      match load s with
      | .error _ => (s, none, false)
      | .ok recs =>
        (save s ((if forceCleanup then prune recs cutoff else recs) ++ [d]),
         some (messageId d), true)
    else (s, none, false)

/-- Modelled from the spec: `is_processed`.  A `None` or empty
`message_id` is treated as not found with `success = true`; an
unrecoverable load failure yields `success = false`; otherwise the first
component tells whether some record carries the id. -/
def isProcessed (s : StorageState) (mid : Option String) : Bool × Bool :=
  match mid with
  | none => (false, true)
  | some m =>
    if m == "" then (false, true)
    else
      match load s with
      | .error _ => (false, false)
      | .ok recs => (recs.any (fun r => messageId r == m), true)

/-- Modelled from the spec: `get_record_count`, the size of the collection
after a fresh load. -/
def getRecordCount (s : StorageState) : Nat :=
  match load s with
  | .ok recs => recs.length
  | .error _ => 0

/-- Modelled from the spec: `rotate_key` generates a fresh key, pushes it
to the front of the keyring, evicts the oldest retired key when the
keyring would exceed 3 entries, and re-saves the store re-encrypted under
the new active key; on failure the state is left unchanged. -/
def rotateKey (s : StorageState) : StorageState × Bool :=
  match load s with
  | .error _ => (s, false)
  | .ok recs =>
    let s1 : StorageState :=
      { keys := ((⟨s.nextKeyId⟩ : Key) :: s.keys).take 3,
        nextKeyId := s.nextKeyId + 1, file := s.file, backups := s.backups }
    (save s1 recs, true)

/-- Overwriting the live record file's bytes with arbitrary garbage, as
the corruption-tolerance scenario of the spec does. -/
def corruptFile (s : StorageState) : StorageState :=
  { s with file := some .garbage }

/-- Modelled from the spec: a freshly constructed store: one active key
and a freshly created empty encrypted record file (the facade recreates a
missing file), no backups yet. -/
def initState : StorageState :=
  { keys := [⟨0⟩], nextKeyId := 1, file := some (.enc 0 []), backups := [] }

/-- A sample valid record carrying `message_id` X, used as concrete
input for closed instances of the theorems. -/
def sampleRecordX : Rec :=
  [("message_id", "X"), ("timestamp", "2026-01-01T00:00:00")]

/-- A second sample valid record, with `message_id` Y. -/
def sampleRecordY : Rec :=
  [("message_id", "Y"), ("timestamp", "2026-03-01T00:00:00")]

/-- A sample record whose timestamp lies before the retention cutoff
used in the concrete retention scenario. -/
def recOld : Rec :=
  [("message_id", "old"), ("timestamp", "2020-01-01T00:00:00")]

/-- A sample record whose timestamp lies after the retention cutoff used
in the concrete retention scenario. -/
def recYoung : Rec :=
  [("message_id", "young"), ("timestamp", "2026-02-01T00:00:00")]

/-- A store whose live file already holds `recOld` and `recYoung`, the
concrete input of the retention scenario. -/
def retentionSampleState : StorageState :=
  { keys := [⟨0⟩], nextKeyId := 1,
    file := some (.enc 0 [recOld, recYoung]), backups := [] }

end SecureStorage

namespace EmailPipeline

/-- The email topics of `email_classifier.py` (`EmailTopic`). -/
inductive EmailTopic where
  | meeting
  | unknown
deriving DecidableEq, Repr

/-- The side-effecting calls `email_processor.py` makes on its
collaborators while handling one email, each tagged with the email's
`message_id`: the storage dedup check (`storage.is_processed`), the
classifier call, the two analyzer calls, the router call, the Gmail
status updates and the storage write (`storage.add_record`). -/
inductive Action where
  | checkProcessed (mid : String)
  | classify (mid : String)
  | llamaAnalyze (mid : String)
  | deepseekAnalyze (mid : String)
  | route (mid : String)
  | markRead (mid : String)
  | markUnread (mid : String)
  | addRecord (mid : String)
deriving DecidableEq, Repr

/-- Per-email oracle for the pipeline's external collaborators: the result
of `storage.is_processed(message_id)`, the classifier's topic or raised
exception, the llama and deepseek analyzers' results or raised exceptions
(a recommendation/decision string paired with an analysis mapping), the
router's `(should_mark_read, error)` result or raised exception, and the
success of the Gmail status updates and of `storage.add_record`. -/
structure EmailEnv where
  isProcessedResult : Bool × Bool
  classifyResult : Except String EmailTopic
  llamaResult : Except String (String × List (String × String))
  deepseekResult : Except String (String × List (String × String))
  routeResult : Except String (Bool × Option String)
  markReadOk : Bool
  markUnreadOk : Bool
  addRecordOk : Bool

/-- Python `dict.update`: entries of the second mapping override entries
of the first with the same field name. -/
def dictUpdate (a b : List (String × String)) : List (String × String) :=
  a.filter (fun p => (b.lookup p.1).isNone) ++ b

/-- `EmailProcessor._analyze_email_content`: llama analysis first; for a
meeting email a deepseek decision then overrides the recommendation
(`standard_response` to `needs_standard_response`, `flag_for_action` to
`needs_review`, anything else to `ignore`) and its analysis is merged in;
any exception raised inside is caught and turned into the recommendation
`needs_review` with empty analysis metadata.  The second component is the
trace of analyzer calls made. -/
def analyzeEmailContent (env : EmailEnv) (mid : String) (topic : EmailTopic) :
    (String × List (String × String)) × List Action :=
  match env.llamaResult with
  | .error _ => (("needs_review", []), [.llamaAnalyze mid])
  | .ok (recommendation, analysis) =>
    if topic = .meeting then
      match env.deepseekResult with
      | .error _ => (("needs_review", []), [.llamaAnalyze mid, .deepseekAnalyze mid])
      | .ok (decision, dAnalysis) =>
        ((if decision = "standard_response" then "needs_standard_response"
          else if decision = "flag_for_action" then "needs_review"
          else "ignore", dictUpdate analysis dAnalysis),
         [.llamaAnalyze mid, .deepseekAnalyze mid])
    else ((recommendation, analysis), [.llamaAnalyze mid])

/-- `EmailProcessor._process_single_email`: classify, analyze, then act on
the recommendation; exceptions raised by collaborators are caught and
reported as a `(False, error_message)` result.  Returns the
`(success, error_message)` pair and the trace of collaborator calls. -/
def processSingleEmail (env : EmailEnv) (mid : String) :
    (Bool × Option String) × List Action :=
  match env.classifyResult with
  | .error e =>
    ((false, some ("Error processing email " ++ mid ++ ": " ++ e)), [.classify mid])
  | .ok topic =>
    let a := analyzeEmailContent env mid topic
    let trace0 := Action.classify mid :: a.2
    if a.1.1 = "needs_standard_response" then
      match env.routeResult with
      | .error e =>
        ((false, some ("Error processing email " ++ mid ++ ": " ++ e)),
         trace0 ++ [.route mid])
      | .ok (_, some err) => ((false, some err), trace0 ++ [.route mid])
      | .ok (shouldMarkRead, none) =>
        if shouldMarkRead then
          if env.markReadOk then
            if env.addRecordOk then
              ((true, none), trace0 ++ [.route mid, .markRead mid, .addRecord mid])
            else
              ((false, some ("Failed to mark " ++ mid ++ " as processed")),
               trace0 ++ [.route mid, .markRead mid, .addRecord mid])
          else
            ((false, some ("Failed to mark " ++ mid ++ " as read")),
             trace0 ++ [.route mid, .markRead mid])
        else ((true, none), trace0 ++ [.route mid, .markUnread mid])
    else if a.1.1 = "ignore" then
      if env.markReadOk then
        if env.addRecordOk then
          ((true, some ("Email " ++ mid ++ " ignored and marked as read")),
           trace0 ++ [.markRead mid, .addRecord mid])
        else
          ((false, some ("Failed to mark " ++ mid ++ " as processed")),
           trace0 ++ [.markRead mid, .addRecord mid])
      else
        ((false, some ("Failed to mark " ++ mid ++ " as read")),
         trace0 ++ [.markRead mid])
    else
      ((true, some ("Email " ++ mid ++ " marked for " ++ a.1.1)),
       trace0 ++ [.markUnread mid])

/-- One iteration of the loop of `process_unread_emails`: the storage
dedup check first, skipping an already-processed email and counting a
failed check as an error; otherwise the email is processed and counted as
processed or as an error with its message.  Returns the contribution to
`(processed_count, error_count, error_messages)` and the call trace. -/
def stepEmail (x : String × EmailEnv) : (Nat × Nat × List String) × List Action :=
  if !x.2.isProcessedResult.2 then
    ((0, 1, ["Failed to verify status of " ++ x.1]), [.checkProcessed x.1])
  else if x.2.isProcessedResult.1 then
    ((0, 0, []), [.checkProcessed x.1])
  else
    let r := processSingleEmail x.2 x.1
    if r.1.1 then ((1, 0, []), .checkProcessed x.1 :: r.2)
    else ((0, 1, [(r.1.2).getD ""]), .checkProcessed x.1 :: r.2)

/-- `EmailProcessor.process_unread_emails` over a batch of unread emails,
each given with its collaborator oracle: the per-email contributions to
`(processed_count, error_count, error_messages)` accumulate in order, as
do the call traces. -/
def processUnreadEmails :
    List (String × EmailEnv) → (Nat × Nat × List String) × List Action
  | [] => ((0, 0, []), [])
  | x :: rest =>
    let h := stepEmail x
    let t := processUnreadEmails rest
    ((h.1.1 + t.1.1, h.1.2.1 + t.1.2.1, h.1.2.2 ++ t.1.2.2), h.2 ++ t.2)

/-- An email is skipped by the loop when the dedup check succeeds and
reports it as already processed. -/
def emailSkipped (x : String × EmailEnv) : Bool :=
  x.2.isProcessedResult.2 && x.2.isProcessedResult.1

/-- An email counts as processed when the dedup check succeeds, reports it
unprocessed, and `_process_single_email` returns success. -/
def emailSucceeds (x : String × EmailEnv) : Bool :=
  x.2.isProcessedResult.2 && !x.2.isProcessedResult.1
    && (processSingleEmail x.2 x.1).1.1

/-- An email counts as an error when the dedup check fails, or when it
reports the email unprocessed and `_process_single_email` fails. -/
def emailFails (x : String × EmailEnv) : Bool :=
  !x.2.isProcessedResult.2
    || (!x.2.isProcessedResult.1 && !(processSingleEmail x.2 x.1).1.1)

/-- Whether an action is the storage dedup check. -/
def isCheckAction : Action → Bool
  | .checkProcessed _ => true
  | _ => false

/-- A sample oracle: the dedup check reports the email as already
processed. -/
def envSkip : EmailEnv :=
  { isProcessedResult := (true, true), classifyResult := .ok .unknown,
    llamaResult := .ok ("needs_review", []), deepseekResult := .ok ("ignore", []),
    routeResult := .ok (true, none), markReadOk := true, markUnreadOk := true,
    addRecordOk := true }

/-- A sample oracle: an unprocessed email whose analysis recommends
`ignore`, so it is marked read and recorded. -/
def envIgnore : EmailEnv :=
  { envSkip with
    isProcessedResult := (false, true),
    llamaResult := .ok ("ignore", []) }

/-- A sample oracle: an unprocessed email whose llama analysis raises an
exception. -/
def envAnalysisFails : EmailEnv :=
  { envSkip with
    isProcessedResult := (false, true),
    llamaResult := .error "boom" }

/-- A sample oracle: the dedup check itself fails. -/
def envCheckFails : EmailEnv :=
  { envSkip with isProcessedResult := (false, false) }

end EmailPipeline

namespace SecureStorage

theorem any_keyId_active (s : StorageState) (hk : s.keys ≠ []) :
    s.keys.any (fun k => k.keyId == activeKeyId s) = true := by
  unfold activeKeyId
  cases hks : s.keys with
  | nil => exact absurd hks hk
  | cons k ks => simp

theorem load_save (s : StorageState) (l : List Rec) (hk : s.keys ≠ []) :
    load (save s l) = .ok l := by
  have h := any_keyId_active s hk
  simp [load, save, decryptWith, h]

theorem messageId_ne_of_valid (d : Rec) (h : validRecord d = true) :
    messageId d ≠ "" := by
  simp [validRecord] at h
  exact h.1

theorem addRecord_success (s : StorageState) (d : Rec) (fc : Bool) (c : String)
    (h : (addRecord s (some d) fc c).2.2 = true) :
    validRecord d = true ∧ ∃ recs, load s = .ok recs := by
  cases hv : validRecord d with
  | false => simp [addRecord, hv] at h
  | true =>
    cases hl : load s with
    | error e => simp [addRecord, hv, hl] at h
    | ok recs => exact ⟨rfl, recs, rfl⟩

/-- Claim C1: for every valid record, if `add_record` succeeds then a
subsequent `is_processed` on its `message_id` returns `(true, true)`. -/
theorem add_then_is_processed
    (s : StorageState) (d : Rec) (fc : Bool) (c : String)
    (hk : s.keys ≠ [])
    (hadd : (addRecord s (some d) fc c).2.2 = true) :
    isProcessed (addRecord s (some d) fc c).1 (some (messageId d)) = (true, true) := by
  obtain ⟨hv, recs, hl⟩ := addRecord_success s d fc c hadd
  have hstate : (addRecord s (some d) fc c).1
      = save s ((if fc then prune recs c else recs) ++ [d]) := by
    simp [addRecord, hv, hl]
  rw [hstate]
  have hmb : (messageId d == "") = false :=
    beq_eq_false_iff_ne.mpr (messageId_ne_of_valid d hv)
  simp [isProcessed, hmb, load_save _ _ hk, List.any_append]

theorem add_then_is_processed_run :
    initState.keys ≠ []
    ∧ (addRecord initState (some sampleRecordX) false "").2.2 = true
    ∧ isProcessed (addRecord initState (some sampleRecordX) false "").1
        (some (messageId sampleRecordX)) = (true, true) :=
  ⟨by decide, by decide,
   add_then_is_processed initState sampleRecordX false "" (by decide) (by decide)⟩

/-- Claim C5: `add_record` on `None` and on the empty mapping returns
`success = false` and leaves the state, hence the on-disk file and the
record count, unchanged. -/
theorem add_invalid_noop (s : StorageState) (fc : Bool) (c : String) :
    addRecord s none fc c = (s, none, false)
    ∧ addRecord s (some []) fc c = (s, none, false)
    ∧ getRecordCount (addRecord s (some []) fc c).1 = getRecordCount s := by
  have h2 : addRecord s (some []) fc c = (s, none, false) := by
    simp [addRecord, validRecord, messageId]
  exact ⟨rfl, h2, by rw [h2]⟩

/-- Claim C6: `is_processed` with a `None` or empty `message_id` returns
`(false, true)` on every store state, a not-found result rather than a
failure. -/
theorem is_processed_unset_id (s : StorageState) :
    isProcessed s none = (false, true) ∧ isProcessed s (some "") = (false, true) :=
  ⟨rfl, by simp [isProcessed]⟩

theorem rotate_keyBound (s : StorageState) (h : s.keys.length ≤ 3) :
    ((rotateKey s).1).keys.length ≤ 3 := by
  unfold rotateKey
  cases hl : load s with
  | error e => simpa using h
  | ok recs =>
    simp [save, List.length_take]

/-- Claim C3: after any number of `rotate_key` calls on a store whose
keyring is within bounds, the keyring never holds more than 3 keys. -/
theorem keyring_bound (s : StorageState) (n : Nat) (h : s.keys.length ≤ 3) :
    ((fun st => (rotateKey st).1)^[n] s).keys.length ≤ 3 := by
  induction n generalizing s with
  | zero => simpa using h
  | succ k ih =>
    rw [Function.iterate_succ_apply]
    exact ih _ (rotate_keyBound s h)

theorem keyring_bound_run :
    initState.keys.length ≤ 3
    ∧ ((fun st => (rotateKey st).1)^[5] initState).keys.length ≤ 3 :=
  ⟨by decide, keyring_bound initState 5 (by decide)⟩

theorem isProcessed_save (s : StorageState) (l : List Rec) (m : String)
    (hk : s.keys ≠ []) (hmb : (m == "") = false) :
    isProcessed (save s l) (some m) = (l.any (fun r => messageId r == m), true) := by
  simp [isProcessed, hmb, load_save _ _ hk]

/-- Claim C4: key rotation is transparent to reads: when `rotate_key`
succeeds, any `message_id` reported `(true, true)` by `is_processed`
before the rotation is still reported `(true, true)` after it. -/
theorem rotate_transparent (s : StorageState) (m : String)
    (hr : (rotateKey s).2 = true)
    (hp : isProcessed s (some m) = (true, true)) :
    isProcessed (rotateKey s).1 (some m) = (true, true) := by
  cases hl : load s with
  | error e => simp [rotateKey, hl] at hr
  | ok recs =>
    have hstate : (rotateKey s).1
        = save { keys := ((⟨s.nextKeyId⟩ : Key) :: s.keys).take 3,
                 nextKeyId := s.nextKeyId + 1, file := s.file,
                 backups := s.backups } recs := by
      simp [rotateKey, hl]
    by_cases hm : m = ""
    · subst hm
      simp [isProcessed] at hp
    · have hmb : (m == "") = false := beq_eq_false_iff_ne.mpr hm
      simp [isProcessed, hmb, hl] at hp
      have hk1 : ({ keys := ((⟨s.nextKeyId⟩ : Key) :: s.keys).take 3,
                    nextKeyId := s.nextKeyId + 1, file := s.file,
                    backups := s.backups } : StorageState).keys ≠ [] := by
        simp
      rw [hstate, isProcessed_save _ _ _ hk1 hmb]
      simp only [Prod.mk.injEq]
      refine ⟨?_, trivial⟩
      rw [List.any_eq_true]
      obtain ⟨x, hx, hxm⟩ := hp
      exact ⟨x, hx, by simp [hxm]⟩

theorem rotate_transparent_run :
    (rotateKey (addRecord initState (some sampleRecordX) false "").1).2 = true
    ∧ isProcessed (addRecord initState (some sampleRecordX) false "").1
        (some "X") = (true, true)
    ∧ isProcessed
        (rotateKey (addRecord initState (some sampleRecordX) false "").1).1
        (some "X") = (true, true) :=
  ⟨by decide, by decide,
   rotate_transparent (addRecord initState (some sampleRecordX) false "").1 "X"
     (by decide) (by decide)⟩

/-- Claim C7: an `add_record` call with `force_cleanup` removes every
record older than the retention cutoff, so its `message_id` is afterwards
reported `(false, true)` by `is_processed`, while a record younger than
the cutoff survives the same cleanup pass and stays found. -/
theorem retention_cleanup
    (s : StorageState) (recs : List Rec) (d : Rec) (cutoff oldId : String) (ry : Rec)
    (hk : s.keys ≠ [])
    (hl : load s = .ok recs)
    (hd : validRecord d = true)
    (hdid : messageId d ≠ oldId)
    (hold : ∀ r ∈ recs, messageId r = oldId → isOlder r cutoff = true)
    (hy : ry ∈ recs) (hyoung : isOlder ry cutoff = false) (hyid : messageId ry ≠ "") :
    (addRecord s (some d) true cutoff).2.2 = true
    ∧ isProcessed (addRecord s (some d) true cutoff).1 (some oldId) = (false, true)
    ∧ isProcessed (addRecord s (some d) true cutoff).1 (some (messageId ry))
        = (true, true) := by
  have hstate : (addRecord s (some d) true cutoff).1
      = save s (prune recs cutoff ++ [d]) := by
    simp [addRecord, hd, hl]
  have hsucc : (addRecord s (some d) true cutoff).2.2 = true := by
    simp [addRecord, hd, hl]
  refine ⟨hsucc, ?_, ?_⟩
  · rw [hstate]
    by_cases ho : oldId = ""
    · subst ho
      simp [isProcessed]
    · have hob : (oldId == "") = false := beq_eq_false_iff_ne.mpr ho
      have hanyf : (prune recs cutoff ++ [d]).any
          (fun r => messageId r == oldId) = false := by
        rw [Bool.eq_false_iff]
        rw [Ne, List.any_eq_true]
        rintro ⟨r, hr, hbeq⟩
        rw [beq_iff_eq] at hbeq
        rcases List.mem_append.mp hr with h1 | h1
        · rcases List.mem_filter.mp h1 with ⟨hr2, hr3⟩
          rw [hold r hr2 hbeq] at hr3
          simp at hr3
        · simp at h1
          subst h1
          exact hdid hbeq
      simp [isProcessed, hob, load_save _ _ hk, hanyf]
  · rw [hstate]
    have hyb : (messageId ry == "") = false := beq_eq_false_iff_ne.mpr hyid
    have hmem : ry ∈ prune recs cutoff :=
      List.mem_filter.mpr ⟨hy, by simp [hyoung]⟩
    have hanyt : (prune recs cutoff ++ [d]).any
        (fun r => messageId r == messageId ry) = true :=
      List.any_eq_true.mpr ⟨ry, List.mem_append.mpr (Or.inl hmem), by simp⟩
    simp [isProcessed, hyb, load_save _ _ hk, hanyt]

theorem retention_cleanup_run :
    retentionSampleState.keys ≠ []
    ∧ load retentionSampleState = .ok [recOld, recYoung]
    ∧ validRecord sampleRecordY = true
    ∧ messageId sampleRecordY ≠ "old"
    ∧ (∀ r ∈ [recOld, recYoung],
        messageId r = "old" → isOlder r "2026-01-01T00:00:00" = true)
    ∧ recYoung ∈ [recOld, recYoung]
    ∧ isOlder recYoung "2026-01-01T00:00:00" = false
    ∧ messageId recYoung ≠ ""
    ∧ (addRecord retentionSampleState (some sampleRecordY) true
        "2026-01-01T00:00:00").2.2 = true
    ∧ isProcessed (addRecord retentionSampleState (some sampleRecordY) true
        "2026-01-01T00:00:00").1 (some "old") = (false, true)
    ∧ isProcessed (addRecord retentionSampleState (some sampleRecordY) true
        "2026-01-01T00:00:00").1 (some (messageId recYoung)) = (true, true) :=
  ⟨by decide, rfl, by decide, by decide, by decide, by decide, by decide,
   by decide,
   (retention_cleanup retentionSampleState [recOld, recYoung] sampleRecordY
     "2026-01-01T00:00:00" "old" recYoung (by decide) rfl (by decide)
     (by decide) (by decide) (by decide) (by decide) (by decide)).1,
   (retention_cleanup retentionSampleState [recOld, recYoung] sampleRecordY
     "2026-01-01T00:00:00" "old" recYoung (by decide) rfl (by decide)
     (by decide) (by decide) (by decide) (by decide) (by decide)).2.1,
   (retention_cleanup retentionSampleState [recOld, recYoung] sampleRecordY
     "2026-01-01T00:00:00" "old" recYoung (by decide) rfl (by decide)
     (by decide) (by decide) (by decide) (by decide) (by decide)).2.2⟩

/-- Claim C2, counterexample: on a fresh store, `add_record` of a record
with `message_id` X succeeds, yet after the live file is overwritten with
garbage `is_processed X` does not return `(true, true)`: the backup taken
by that very `add_record` call snapshots the pre-write file, which does
not contain X, so recovery yields `(false, true)`. -/
theorem corruption_after_first_write_loses_it :
    (addRecord initState (some sampleRecordX) false "").2.2 = true
    ∧ isProcessed (corruptFile (addRecord initState (some sampleRecordX) false "").1)
        (some "X") = (false, true)
    ∧ isProcessed (corruptFile (addRecord initState (some sampleRecordX) false "").1)
        (some "X") ≠ (true, true) := by
  refine ⟨by decide, by decide, by decide⟩

theorem load_corrupt_after_two_saves (s : StorageState) (l1 l2 : List Rec)
    (hk : s.keys ≠ []) :
    load (corruptFile (save (save s l1) l2)) = .ok l1 := by
  have hany := any_keyId_active s hk
  simp [corruptFile, save, load, decryptWith, hany]

/-- Claim C2 as amended: when a further successful mutating write follows
the `add_record` of X, overwriting the live file with garbage is
recovered from the backup taken by that later write, which does contain
X, so `is_processed X` returns `(true, true)`. -/
theorem corruption_after_later_write_recovers
    (s : StorageState) (d1 d2 : Rec) (fc1 fc2 : Bool) (c1 c2 : String)
    (hk : s.keys ≠ [])
    (h1 : (addRecord s (some d1) fc1 c1).2.2 = true)
    (h2 : (addRecord (addRecord s (some d1) fc1 c1).1 (some d2) fc2 c2).2.2 = true) :
    isProcessed
      (corruptFile (addRecord (addRecord s (some d1) fc1 c1).1 (some d2) fc2 c2).1)
      (some (messageId d1)) = (true, true) := by
  obtain ⟨hv1, recs, hl1⟩ := addRecord_success s d1 fc1 c1 h1
  have hstate1 : (addRecord s (some d1) fc1 c1).1
      = save s ((if fc1 then prune recs c1 else recs) ++ [d1]) := by
    simp [addRecord, hv1, hl1]
  rw [hstate1] at h2 ⊢
  obtain ⟨hv2, recs2, hl2⟩ := addRecord_success _ d2 fc2 c2 h2
  have hload1 := load_save s ((if fc1 then prune recs c1 else recs) ++ [d1]) hk
  have hstate2 : (addRecord (save s ((if fc1 then prune recs c1 else recs) ++ [d1]))
      (some d2) fc2 c2).1
      = save (save s ((if fc1 then prune recs c1 else recs) ++ [d1]))
          ((if fc2 then
              prune ((if fc1 then prune recs c1 else recs) ++ [d1]) c2
            else (if fc1 then prune recs c1 else recs) ++ [d1]) ++ [d2]) := by
    simp [addRecord, hv2, hload1]
  rw [hstate2]
  have hmb : (messageId d1 == "") = false :=
    beq_eq_false_iff_ne.mpr (messageId_ne_of_valid d1 hv1)
  have hrec := load_corrupt_after_two_saves s
    ((if fc1 then prune recs c1 else recs) ++ [d1])
    ((if fc2 then prune ((if fc1 then prune recs c1 else recs) ++ [d1]) c2
      else (if fc1 then prune recs c1 else recs) ++ [d1]) ++ [d2]) hk
  simp [isProcessed, hmb, hrec, List.any_append]

theorem corruption_after_later_write_recovers_run :
    initState.keys ≠ []
    ∧ (addRecord initState (some sampleRecordX) false "").2.2 = true
    ∧ (addRecord (addRecord initState (some sampleRecordX) false "").1
        (some sampleRecordY) false "").2.2 = true
    ∧ isProcessed
        (corruptFile (addRecord (addRecord initState (some sampleRecordX) false "").1
          (some sampleRecordY) false "").1)
        (some (messageId sampleRecordX)) = (true, true) :=
  ⟨by decide, by decide, by decide,
   corruption_after_later_write_recovers initState sampleRecordX sampleRecordY
     false false "" "" (by decide) (by decide) (by decide)⟩

end SecureStorage

namespace EmailPipeline

theorem analyze_trace_shape (env : EmailEnv) (mid : String) (topic : EmailTopic) :
    (analyzeEmailContent env mid topic).2 = [Action.llamaAnalyze mid]
    ∨ (analyzeEmailContent env mid topic).2
        = [Action.llamaAnalyze mid, Action.deepseekAnalyze mid] := by
  cases hL : env.llamaResult with
  | error e => simp [analyzeEmailContent, hL]
  | ok p =>
    obtain ⟨r, a⟩ := p
    by_cases ht : topic = EmailTopic.meeting
    · cases hD : env.deepseekResult with
      | error e => simp [analyzeEmailContent, hL, ht, hD]
      | ok q =>
        obtain ⟨dec, da⟩ := q
        simp [analyzeEmailContent, hL, ht, hD]
    · simp [analyzeEmailContent, hL, ht]

theorem processSingle_addRecord_order (env : EmailEnv) (mid : String)
    (h : Action.addRecord mid ∈ (processSingleEmail env mid).2) :
    env.markReadOk = true
    ∧ ∃ t, (processSingleEmail env mid).2
        = t ++ [Action.markRead mid, Action.addRecord mid] := by
  cases hC : env.classifyResult with
  | error e => simp [processSingleEmail, hC] at h
  | ok topic =>
    rcases analyze_trace_shape env mid topic with hA | hA <;>
    · by_cases hstd : (analyzeEmailContent env mid topic).1.1 = "needs_standard_response"
      · cases hR : env.routeResult with
        | error e => simp [processSingleEmail, hC, hA, hstd, hR] at h
        | ok p =>
          obtain ⟨smr, err⟩ := p
          cases err with
          | some e => simp [processSingleEmail, hC, hA, hstd, hR] at h
          | none =>
            cases hsmr : smr with
            | false => simp [processSingleEmail, hC, hA, hstd, hR, hsmr] at h
            | true =>
              cases hmr : env.markReadOk with
              | false => simp [processSingleEmail, hC, hA, hstd, hR, hsmr, hmr] at h
              | true =>
                have htr : (processSingleEmail env mid).2
                    = (Action.classify mid :: (analyzeEmailContent env mid topic).2
                        ++ [Action.route mid])
                      ++ [Action.markRead mid, Action.addRecord mid] := by
                  cases har : env.addRecordOk <;>
                    simp [processSingleEmail, hC, hstd, hR, hsmr, hmr, har]
                exact ⟨rfl, _, htr⟩
      · by_cases hig : (analyzeEmailContent env mid topic).1.1 = "ignore"
        · cases hmr : env.markReadOk with
          | false => simp [processSingleEmail, hC, hA, hstd, hig, hmr] at h
          | true =>
            have htr : (processSingleEmail env mid).2
                = (Action.classify mid :: (analyzeEmailContent env mid topic).2)
                  ++ [Action.markRead mid, Action.addRecord mid] := by
              cases har : env.addRecordOk <;>
                simp [processSingleEmail, hC, hstd, hig, hmr, har]
            exact ⟨rfl, _, htr⟩
        · simp [processSingleEmail, hC, hA, hstd, hig] at h

theorem processSingle_trace_subset (env : EmailEnv) (mid : String) :
    ∀ x ∈ (processSingleEmail env mid).2,
      x ∈ [Action.classify mid, Action.llamaAnalyze mid, Action.deepseekAnalyze mid,
           Action.route mid, Action.markRead mid, Action.markUnread mid,
           Action.addRecord mid] := by
  intro x hx
  cases hC : env.classifyResult with
  | error e =>
    simp [processSingleEmail, hC] at hx
    simp [hx]
  | ok topic =>
    rcases analyze_trace_shape env mid topic with hA | hA <;>
    · by_cases hstd : (analyzeEmailContent env mid topic).1.1 = "needs_standard_response"
      · cases hR : env.routeResult with
        | error e =>
          simp [processSingleEmail, hC, hA, hstd, hR] at hx
          (simp only [List.mem_cons, List.not_mem_nil, or_false]; tauto)
        | ok p =>
          obtain ⟨smr, err⟩ := p
          cases err with
          | some e =>
            simp [processSingleEmail, hC, hA, hstd, hR] at hx
            (simp only [List.mem_cons, List.not_mem_nil, or_false]; tauto)
          | none =>
            cases hsmr : smr with
            | false =>
              simp [processSingleEmail, hC, hA, hstd, hR, hsmr] at hx
              (simp only [List.mem_cons, List.not_mem_nil, or_false]; tauto)
            | true =>
              cases hmr : env.markReadOk with
              | false =>
                simp [processSingleEmail, hC, hA, hstd, hR, hsmr, hmr] at hx
                (simp only [List.mem_cons, List.not_mem_nil, or_false]; tauto)
              | true =>
                cases har : env.addRecordOk <;>
                  simp [processSingleEmail, hC, hA, hstd, hR, hsmr, hmr, har] at hx <;>
                  (simp only [List.mem_cons, List.not_mem_nil, or_false]; tauto)
      · by_cases hig : (analyzeEmailContent env mid topic).1.1 = "ignore"
        · cases hmr : env.markReadOk with
          | false =>
            simp [processSingleEmail, hC, hA, hstd, hig, hmr] at hx
            (simp only [List.mem_cons, List.not_mem_nil, or_false]; tauto)
          | true =>
            cases har : env.addRecordOk <;>
              simp [processSingleEmail, hC, hA, hstd, hig, hmr, har] at hx <;>
              (simp only [List.mem_cons, List.not_mem_nil, or_false]; tauto)
        · simp [processSingleEmail, hC, hA, hstd, hig] at hx
          (simp only [List.mem_cons, List.not_mem_nil, or_false]; tauto)

theorem processSingle_countCheck (env : EmailEnv) (mid : String) :
    (processSingleEmail env mid).2.countP isCheckAction = 0 := by
  rw [List.countP_eq_zero]
  intro a ha
  have hmem := processSingle_trace_subset env mid a ha
  simp at hmem
  rcases hmem with rfl | rfl | rfl | rfl | rfl | rfl | rfl <;> simp [isCheckAction]

theorem stepEmail_counts (x : String × EmailEnv) :
    (stepEmail x).1.1 = (if emailSucceeds x then 1 else 0)
    ∧ (stepEmail x).1.2.1 = (if emailFails x then 1 else 0)
    ∧ (stepEmail x).1.2.2.length = (if emailFails x then 1 else 0)
    ∧ (stepEmail x).2.countP isCheckAction = 1 := by
  obtain ⟨mid, env⟩ := x
  cases h2 : env.isProcessedResult.2 with
  | false => simp [stepEmail, emailSucceeds, emailFails, emailSkipped, h2, isCheckAction]
  | true =>
    cases h1 : env.isProcessedResult.1 with
    | true => simp [stepEmail, emailSucceeds, emailFails, emailSkipped, h1, h2, isCheckAction]
    | false =>
      cases hs : (processSingleEmail env mid).1.1 with
      | true =>
        simp [stepEmail, emailSucceeds, emailFails, h1, h2, hs, List.countP_cons,
          isCheckAction, processSingle_countCheck]
      | false =>
        simp [stepEmail, emailSucceeds, emailFails, h1, h2, hs, List.countP_cons,
          isCheckAction, processSingle_countCheck]

theorem email_outcome_partition (x : String × EmailEnv) :
    (if emailSucceeds x then 1 else 0) + (if emailFails x then 1 else 0)
      + (if emailSkipped x then 1 else 0) = 1 := by
  unfold emailSucceeds emailFails emailSkipped
  cases h2 : x.2.isProcessedResult.2 <;> cases h1 : x.2.isProcessedResult.1 <;>
    cases hs : (processSingleEmail x.2 x.1).1.1 <;> simp [h1, h2, hs]

/-- Claim C8: the pipeline never re-processes a handled email.  The batch
trace is the concatenation of the per-email traces; when the dedup check
reports an email as already processed its entire contribution is that
single check, with no classification, analysis, routing, status update or
storage write; and `add_record` is called on an email only after the
router accepted it and `mark_as_read` succeeded, the `markRead` call
preceding the `addRecord` call in the trace. -/
theorem dedup_skip_and_record_order
    (batch : List (String × EmailEnv)) (mid : String) (env : EmailEnv) :
    (processUnreadEmails batch).2 = (batch.map (fun x => (stepEmail x).2)).join
    ∧ (env.isProcessedResult = (true, true) →
        (stepEmail (mid, env)).2 = [Action.checkProcessed mid])
    ∧ (Action.addRecord mid ∈ (processSingleEmail env mid).2 →
        env.markReadOk = true
        ∧ ∃ t, (processSingleEmail env mid).2
            = t ++ [Action.markRead mid, Action.addRecord mid]) := by
  refine ⟨?_, ?_, processSingle_addRecord_order env mid⟩
  · induction batch with
    | nil => simp [processUnreadEmails]
    | cons x rest ih => simp [processUnreadEmails, ih]
  · intro h
    simp [stepEmail, h]

theorem dedup_skip_and_record_order_run :
    (stepEmail ("a", envSkip)).2 = [Action.checkProcessed "a"]
    ∧ (envIgnore.markReadOk = true
       ∧ ∃ t, (processSingleEmail envIgnore "a").2
           = t ++ [Action.markRead "a", Action.addRecord "a"]) :=
  ⟨(dedup_skip_and_record_order [] "a" envSkip).2.1 rfl,
   (dedup_skip_and_record_order [] "a" envIgnore).2.2 (by decide)⟩

/-- Claim C9: a failure on one email never stops the batch.  Over every
batch, the processed count is the number of emails handled successfully,
the error count is the number of emails whose dedup check failed or whose
processing failed, each error contributes exactly one message, the dedup
check is performed once per email of the batch (so processing continues
past every failure), and every email is accounted for as processed,
errored or skipped; the embedding is total, so no per-email or storage
error escapes as an uncaught exception. -/
theorem batch_error_isolation (batch : List (String × EmailEnv)) :
    (processUnreadEmails batch).1.1 = batch.countP emailSucceeds
    ∧ (processUnreadEmails batch).1.2.1 = batch.countP emailFails
    ∧ (processUnreadEmails batch).1.2.2.length = batch.countP emailFails
    ∧ (processUnreadEmails batch).2.countP isCheckAction = batch.length
    ∧ batch.countP emailSucceeds + batch.countP emailFails
        + batch.countP emailSkipped = batch.length := by
  induction batch with
  | nil => simp [processUnreadEmails]
  | cons x rest ih =>
    obtain ⟨ihp, ihe, ihm, ihc, ihtot⟩ := ih
    obtain ⟨hp, he, hm, hc⟩ := stepEmail_counts x
    have hpart := email_outcome_partition x
    refine ⟨?_, ?_, ?_, ?_, ?_⟩ <;>
      simp [processUnreadEmails, List.countP_cons, List.countP_append, ihp, ihe,
        ihm, ihc, ihtot, hp, he, hm, hc] <;> omega

/-- Claim C10: if the AI analysis step raises, `_analyze_email_content`
returns the recommendation `needs_review` with empty analysis metadata,
and `_process_single_email` then returns success while marking the email
unread: no `markRead` and no `addRecord` call occurs for it, so it is
never marked read nor recorded as processed. -/
theorem analysis_failure_leaves_unread (env : EmailEnv) (mid : String)
    (topic : EmailTopic)
    (hC : env.classifyResult = .ok topic)
    (hfail : (∃ e, env.llamaResult = .error e)
      ∨ (topic = EmailTopic.meeting ∧ ∃ e, env.deepseekResult = .error e)) :
    (analyzeEmailContent env mid topic).1 = ("needs_review", [])
    ∧ (processSingleEmail env mid).1.1 = true
    ∧ Action.markUnread mid ∈ (processSingleEmail env mid).2
    ∧ Action.markRead mid ∉ (processSingleEmail env mid).2
    ∧ Action.addRecord mid ∉ (processSingleEmail env mid).2 := by
  have hrec : (analyzeEmailContent env mid topic).1 = ("needs_review", []) := by
    rcases hfail with ⟨e, hL⟩ | ⟨ht, e, hD⟩
    · simp [analyzeEmailContent, hL]
    · cases hL : env.llamaResult with
      | error e2 => simp [analyzeEmailContent, hL]
      | ok p =>
        obtain ⟨r, a⟩ := p
        simp [analyzeEmailContent, hL, ht, hD]
  have hstd : ¬((analyzeEmailContent env mid topic).1.1 = "needs_standard_response") := by
    rw [hrec]
    decide
  have hig : ¬((analyzeEmailContent env mid topic).1.1 = "ignore") := by
    rw [hrec]
    decide
  rcases analyze_trace_shape env mid topic with hA | hA <;>
    refine ⟨hrec, ?_, ?_, ?_, ?_⟩ <;>
      simp [processSingleEmail, hC, hstd, hig, hA]

theorem analysis_failure_leaves_unread_run :
    (analyzeEmailContent envAnalysisFails "a" EmailTopic.unknown).1
        = ("needs_review", [])
    ∧ (processSingleEmail envAnalysisFails "a").1.1 = true
    ∧ Action.markUnread "a" ∈ (processSingleEmail envAnalysisFails "a").2
    ∧ Action.markRead "a" ∉ (processSingleEmail envAnalysisFails "a").2
    ∧ Action.addRecord "a" ∉ (processSingleEmail envAnalysisFails "a").2 :=
  analysis_failure_leaves_unread envAnalysisFails "a" EmailTopic.unknown rfl
    (Or.inl ⟨"boom", rfl⟩)

end EmailPipeline

end SentientInbox
